import Mathlib

/-!
Shallow embedding of the command-monitoring / output-analysis / auto-documentation
core of the Hacksor CLI repository (src/src/terminal/), together with theorems
settling the specification claims about it.

Machine strings are modelled as Lean `String` (a list of characters); the Rust
string primitives used by the source (`trim`, `to_lowercase`, `contains`,
`starts_with`, `replace`, `split_whitespace`, `lines`, `join`) are given
executable character-list implementations below so that every theorem can be
evaluated by the kernel on concrete inputs.

Wall-clock instants are modelled as natural numbers (seconds); UUID generation
and the current date are environment inputs and appear as explicit parameters
or as fixed placeholder values where no claim depends on them.
-/

namespace Hx

/-! ### Character-list string primitives (Rust `str` operations) -/

/-- Is `pre` a prefix of `l`? (Rust `str::starts_with`.) -/
def isPrefixL : List Char → List Char → Bool
  | [], _ => true
  | _ :: _, [] => false
  | a :: as, b :: bs => a == b && isPrefixL as bs

/-- Does `needle` occur as a contiguous substring of `l`? (Rust `str::contains`.) -/
def hasSubL (needle : List Char) : List Char → Bool
  | [] => needle.isEmpty
  | c :: rest => isPrefixL needle (c :: rest) || hasSubL needle rest

/-- String containment (Rust `str::contains`). -/
def strHas (hay needle : String) : Bool := hasSubL needle.data hay.data

/-- String prefix test (Rust `str::starts_with`). -/
def strStarts (hay pre : String) : Bool := isPrefixL pre.data hay.data

/-- Lower-case every character (Rust `str::to_lowercase`; inputs are ASCII). -/
def strLower (s : String) : String := ⟨s.data.map Char.toLower⟩

/-- Strip leading and trailing whitespace (Rust `str::trim`). -/
def trimL (l : List Char) : List Char :=
  ((l.dropWhile Char.isWhitespace).reverse.dropWhile Char.isWhitespace).reverse

/-- String trim (Rust `str::trim`). -/
def strTrim (s : String) : String := ⟨trimL s.data⟩

/-- Recursion core of `replL`. Each step consumes at least one character, so
fuel equal to the list length suffices; fuel makes the recursion structural
and hence kernel-reducible on concrete inputs. -/
def replGo (needle repl : List Char) : Nat → List Char → List Char
  | 0, l => l
  | _ + 1, [] => []
  | fuel + 1, c :: rest =>
    if isPrefixL needle (c :: rest) && !needle.isEmpty then
      repl ++ replGo needle repl fuel (List.drop (needle.length - 1) rest)
    else
      c :: replGo needle repl fuel rest

/-- Replace every non-overlapping occurrence of `needle` (nonempty in all uses)
by `repl`, scanning left to right (Rust `str::replace`). -/
def replL (needle repl l : List Char) : List Char := replGo needle repl l.length l

/-- String replace (Rust `str::replace`). -/
def strReplace (s needle repl : String) : String := ⟨replL needle.data repl.data s.data⟩

/-- Maximal run of non-whitespace characters at the head of `l`. -/
def takeNonWS (l : List Char) : List Char := l.takeWhile (fun c => !c.isWhitespace)

/-- Recursion core of `splitWSL` (fuel = list length, making the recursion
structural and kernel-reducible). -/
def splitWSGo : Nat → List Char → List (List Char)
  | 0, _ => []
  | _ + 1, [] => []
  | fuel + 1, c :: rest =>
    if c.isWhitespace then splitWSGo fuel rest
    else (c :: takeNonWS rest) :: splitWSGo fuel (rest.dropWhile (fun c => !c.isWhitespace))

/-- Split on runs of whitespace, discarding empties (Rust `str::split_whitespace`). -/
def splitWSL (l : List Char) : List (List Char) := splitWSGo l.length l

/-- Split on a single separator character, keeping empties. Used for `'.'`
(the compiled `splitOn`-style decomposition behind the domain/IP patterns)
and for `'\n'` (Rust `str::lines`; the analysed contexts never end in a
newline, where the two would differ). -/
def splitChL (sep : Char) : List Char → List (List Char)
  | [] => [[]]
  | c :: rest =>
    if c == sep then [] :: splitChL sep rest
    else
      match splitChL sep rest with
      | [] => [[c]]
      | p :: ps => (c :: p) :: ps

/-- The lines of a context string (Rust `str::lines` on `'\n'`). -/
def linesOf (s : String) : List (List Char) := splitChL '\n' s.data

/-- Join a list of strings with a separator (Rust `[String]::join`). -/
def joinSep (sep : String) : List String → String
  | [] => ""
  | [x] => x
  | x :: xs => x ++ sep ++ joinSep sep xs

deriving instance DecidableEq for Except

/-- First element of `l` satisfying `p` (Rust `Iterator::find`). -/
def findFirst (p : α → Bool) : List α → Option α
  | [] => none
  | x :: xs => if p x then some x else findFirst p xs

/-- Apply `f` to the first element satisfying `p`, leaving the rest unchanged
(Rust `iter_mut().find(...)` followed by a mutation of the found element). -/
def modifyFirst (p : α → Bool) (f : α → α) : List α → List α
  | [] => []
  | x :: xs => if p x then f x :: xs else x :: modifyFirst p f xs

/-- Flattened map over a list (used to collect per-line pattern matches). -/
def catMap (f : α → List β) : List α → List β
  | [] => []
  | x :: xs => f x ++ catMap f xs

/-! ### Data model (src/src/terminal/command_monitor.rs) -/

/-- Lifecycle status of a monitored command (`CommandStatus`). -/
inductive CommandStatus where
  | Running
  | Completed
  | Failed (reason : String)
  deriving DecidableEq, Repr

/-- Category of a monitored command (`CommandType`). -/
inductive CommandType where
  | Reconnaissance
  | Scanning
  | Exploitation
  | Documentation
  | Generic
  | Vulnerability
  deriving DecidableEq, Repr

/-- Severity of a security finding (`FindingSeverity`). -/
inductive FindingSeverity where
  | Critical
  | High
  | Medium
  | Low
  | Info
  deriving DecidableEq, Repr

/-- An atomic security observation (`SecurityFinding`). `id` is a UUID supplied
by the environment and `timestamp` an instant in seconds. -/
structure SecurityFinding where
  id : String
  title : String
  description : String
  severity : FindingSeverity
  command_id : String
  raw_output : String
  timestamp : Nat
  deriving DecidableEq, Repr

/-- One OS process invocation tracked by the monitor (`MonitoredCommand`). -/
structure MonitoredCommand where
  id : String
  command : String
  start_time : Nat
  end_time : Option Nat
  status : CommandStatus
  output_file : String
  results_summary : Option String
  findings : List SecurityFinding
  command_type : CommandType
  deriving DecidableEq, Repr

/-- `create_finding`: builds a `SecurityFinding`; the UUID and the current
instant are environment inputs, fixed here to placeholder values no claim
depends on. -/
def createFinding (title description : String) (severity : FindingSeverity)
    (command_id raw_output : String) : SecurityFinding :=
  { id := "", title := title, description := description, severity := severity,
    command_id := command_id, raw_output := raw_output, timestamp := 0 }

/-! ### Command validation (`CommandMonitor::validate_and_fix_command`) -/

/-- Validation failure, one constructor per `Err` site of
`validate_and_fix_command` (the source carries prose messages in `anyhow`
errors; only the site identity matters to the claims). -/
inductive VErr where
  | emptyCommand
  | explanatoryText (marker : String)
  | privilegedScan
  | missingTarget
  | toolMissing (tool : String)
  deriving DecidableEq, Repr

/-- The `explanatory_markers` array, in source order. -/
def explanatoryMarkers : List String :=
  ["try this", "this will", "command:", "run this", "executing:",
   "scan just", "lay of the land", "scan finishes", "tell me what",
   "we can", "you can", "let\x27s", "while that\x27s", "once the",
   "get a", "gives us", "let me know", "execute this", "we\x27ll",
   "you\x27ll", "finished", "finishes", "look for", "find out"]

/-- Step 1 of the command fixes: an nmap SYN scan (` -sS`) not run under
`sudo` is downgraded to a TCP connect scan (` -sT`). -/
def fixNmapSyn (cmd : String) : String :=
  if strHas cmd "nmap" && strHas cmd " -sS" && !(strStarts cmd "sudo ") then
    strReplace cmd " -sS" " -sT"
  else cmd

/-- Step 2: other privileged nmap scan flags (` -sU`/` -sN`/` -sF`/` -sX`)
without `sudo` are rejected outright. -/
def privilegedScanFlag (cmd : String) : Bool :=
  strHas cmd "nmap" &&
    (strHas cmd " -sU" || strHas cmd " -sN" || strHas cmd " -sF" || strHas cmd " -sX") &&
    !(strStarts cmd "sudo ")

/-- Step 3: an nmap invocation must contain one of the recognized target
patterns (known TLD suffix, ` localhost`, ` 127.0.0.1`, or a private-range
IP prefix); this predicate holds when the check fails. -/
def nmapMissingTarget (fixed : String) : Bool :=
  (strStarts fixed "nmap" || strStarts fixed "sudo nmap") &&
    !(strHas fixed ".com") && !(strHas fixed ".net") && !(strHas fixed ".org") &&
    !(strHas fixed ".edu") && !(strHas fixed ".gov") && !(strHas fixed ".io") &&
    !(strHas fixed ".co") && !(strHas fixed " localhost") &&
    !(strHas fixed " 127.0.0.1") && !(strHas fixed " 10.") &&
    !(strHas fixed " 192.168.") && !(strHas fixed " 172.")

/-- The `common_tools` array, in source order. -/
def commonTools : List String :=
  ["nmap", "dig", "whois", "ping", "traceroute", "gobuster", "ffuf", "dirb"]

/-- Step 4: the first common tool the command invokes must be on the execution
path. `ti tool = true` models a successful `which tool` (an environment
query in the source). -/
def toolGate (ti : String → Bool) (fixed : String) : Except VErr String :=
  match findFirst
      (fun tool => (strStarts fixed tool || strStarts fixed ("sudo " ++ tool)) && !(ti tool))
      commonTools with
  | some tool => .error (.toolMissing tool)
  | none => .ok fixed

/-- `validate_and_fix_command`: trims the command, rejects empty commands and
explanatory text (first matching marker, in array order), downgrades ` -sS`,
rejects other privileged scan flags, rejects nmap invocations without a
recognized target, and rejects commands whose tool is not installed. -/
def validateAndFixCommand (ti : String → Bool) (command : String) : Except VErr String :=
  if strTrim command = "" then .error .emptyCommand
  else
    match findFirst (fun m => strHas (strLower (strTrim command)) m) explanatoryMarkers with
    | some m => .error (.explanatoryText m)
    | none =>
      if privilegedScanFlag (strTrim command) then .error .privilegedScan
      else if nmapMissingTarget (fixNmapSyn (strTrim command)) then .error .missingTarget
      else toolGate ti (fixNmapSyn (strTrim command))

/-! ### The monitor registry operations -/

/-- `CommandMonitor::execute_command`, modelled on the registry: validation
happens first; only on success is a `MonitoredCommand` registered (status
`Running`, no end time) and the process spawned. The `.ok` payload carries the
generated command id together with the line actually spawned (`bash -c` of the
validated command). `newId`, `t` and `file` stand for the UUID, the current
instant and the derived output-file path. -/
def executeCommand (ti : String → Bool) (reg : List MonitoredCommand)
    (cmdline : String) (ctype : CommandType) (newId : String) (t : Nat)
    (file : String) : List MonitoredCommand × Except VErr (String × String) :=
  match validateAndFixCommand ti cmdline with
  | .error e => (reg, .error e)
  | .ok v =>
    (reg ++ [{ id := newId, command := v, start_time := t, end_time := none,
               status := .Running, output_file := file, results_summary := none,
               findings := [], command_type := ctype }], .ok (newId, v))

/-- Termination failure (`terminate_command`): the single `Err` site. -/
inductive TermErr where
  | notFound (id : String)
  deriving DecidableEq, Repr

/-- `CommandMonitor::terminate_command`: looks the command up, and only if it
is `Running` and a live process matching its command line is found in `ps`
output (`psFound`, an environment query) kills it and marks the command
`Failed ("Terminated by user")` with the end time set; every other path
returns the not-found error and leaves the registry untouched. -/
def terminateCommand (reg : List MonitoredCommand) (cmdId : String)
    (psFound : Bool) (t : Nat) : List MonitoredCommand × Except TermErr Unit :=
  match findFirst (fun c => c.id == cmdId) reg with
  | some c =>
    match c.status with
    | .Running =>
      if psFound then
        (modifyFirst (fun c => c.id == cmdId)
          (fun c => { c with status := .Failed "Terminated by user", end_time := some t }) reg,
         .ok ())
      else (reg, .error (.notFound cmdId))
    | _ => (reg, .error (.notFound cmdId))
  | none => (reg, .error (.notFound cmdId))

/-- Channel-send failure (`add_finding`): the single `Err` site. -/
inductive SendErr where
  | sendFailed
  deriving DecidableEq, Repr

/-- `CommandMonitor::add_finding`: appends the finding to the owning command
when one matches (silently skipping otherwise), then publishes the finding to
the findings channel. The middle component is the list of findings actually
delivered to the channel; `sendOk` models the channel send outcome (the
receiver is owned by the monitor itself, so the send succeeds while the
monitor is alive). -/
def addFindingM (reg : List MonitoredCommand) (f : SecurityFinding) (sendOk : Bool) :
    List MonitoredCommand × List SecurityFinding × Except SendErr Unit :=
  let reg2 := modifyFirst (fun c => c.id == f.command_id)
    (fun c => { c with findings := c.findings ++ [f] }) reg
  if sendOk then (reg2, [f], .ok ()) else (reg2, [], .error .sendFailed)

/-- `CommandMonitor::update_command_summary`: sets the summary on the first
matching command. -/
def updateCommandSummary (reg : List MonitoredCommand) (id s : String) :
    List MonitoredCommand :=
  modifyFirst (fun c => c.id == id) (fun c => { c with results_summary := some s }) reg

/-- The exit-waiter task spawned by `execute_command`: when the process exit is
observed (`ok` for a zero exit code, with `codeStr` the displayed exit status)
the command record gets its end time and terminal status — with no check that
the status is still `Running`. -/
def finishWait (reg : List MonitoredCommand) (id : String) (exitOk : Bool)
    (codeStr : String) (t : Nat) : List MonitoredCommand :=
  modifyFirst (fun c => c.id == id)
    (fun c =>
      { c with
        end_time := some t,
        status := if exitOk then .Completed
                  else .Failed ("Command exited with code: " ++ codeStr) }) reg

/-! ### Registry traces

Every mutation of the shared registry performed by the source, as a single
step type, so invariants can be stated over arbitrary interleavings of the
registry operations. -/

/-- One registry mutation. `register` is the successful tail of
`execute_command`; the other constructors name the corresponding source
functions and tasks. -/
inductive RegOp where
  | register (id cmdline : String) (t : Nat) (file : String) (ctype : CommandType)
  | finishWaitOp (id : String) (exitOk : Bool) (codeStr : String) (t : Nat)
  | terminateOp (id : String) (psFound : Bool) (t : Nat)
  | updateSummaryOp (id s : String)
  | addFindingOp (f : SecurityFinding)
  deriving DecidableEq, Repr

/-- Apply one registry mutation. -/
def applyOp (reg : List MonitoredCommand) : RegOp → List MonitoredCommand
  | .register id cl t file ct =>
    reg ++ [{ id := id, command := cl, start_time := t, end_time := none,
              status := .Running, output_file := file, results_summary := none,
              findings := [], command_type := ct }]
  | .finishWaitOp id exitOk code t => finishWait reg id exitOk code t
  | .terminateOp id ps t => (terminateCommand reg id ps t).1
  | .updateSummaryOp id s => updateCommandSummary reg id s
  | .addFindingOp f => (addFindingM reg f true).1

/-- Run a sequence of registry mutations from a starting registry. -/
def runOps : List RegOp → List MonitoredCommand → List MonitoredCommand
  | [], reg => reg
  | o :: os, reg => runOps os (applyOp reg o)

/-- A status is terminal when it is `Completed` or `Failed`. -/
def isTerminal : CommandStatus → Bool
  | .Running => false
  | _ => true

/-! ### Output analyzer (src/src/terminal/output_analyzer.rs)

The compiled regexes are given direct character-list denotations. Quantifier
backtracking can be eliminated wherever the character class of a quantified
atom is disjoint from the character that must follow it (a maximal run
followed by the literal is then the only candidate); the one place where real
backtracking is needed (`\S+` before `\.` in the subdomain pattern, since
`\S` includes `'.'`) is implemented by trying the greedy-first lengths
explicitly. -/

/-- Maximal run of ASCII digits at the head of `l` (`\d+`, greedy). -/
def digitsRun (l : List Char) : List Char := l.takeWhile Char.isDigit

/-- Consume `/tcp` or `/udp` (`/(?:tcp|udp)`). -/
def matchProto : List Char → Option (List Char)
  | '/' :: 't' :: 'c' :: 'p' :: r => some r
  | '/' :: 'u' :: 'd' :: 'p' :: r => some r
  | _ => none

/-- Consume one-or-more whitespace characters (`\s+`, greedy; every use is
followed by a non-whitespace literal or class, so the maximal run is exact). -/
def wsRun1 : List Char → Option (List Char)
  | c :: r => if c.isWhitespace then some (r.dropWhile Char.isWhitespace) else none
  | [] => none

/-- Consume the literal `open`. -/
def matchOpen : List Char → Option (List Char)
  | 'o' :: 'p' :: 'e' :: 'n' :: r => some r
  | _ => none

/-- Try `(\d+)/(?:tcp|udp)\s+open\s+(\S+)` anchored at the head of `l`,
returning the two capture groups (port, service). -/
def portCapAt (l : List Char) : Option (List Char × List Char) :=
  let d := digitsRun l
  if d.isEmpty then none
  else
    match matchProto (l.drop d.length) with
    | none => none
    | some r1 =>
      match wsRun1 r1 with
      | none => none
      | some r2 =>
        match matchOpen r2 with
        | none => none
        | some r3 =>
          match wsRun1 r3 with
          | none => none
          | some r4 =>
            let s := takeNonWS r4
            if s.isEmpty then none else some (d, s)

/-- Leftmost match of the open-port pattern in a line (`Regex::captures`). -/
def portFind : List Char → Option (List Char × List Char)
  | [] => none
  | c :: rest =>
    match portCapAt (c :: rest) with
    | some r => some r
    | none => portFind rest

/-- All (port, service) captures over the lines of a context. The second
port-scan pattern (`PORT\s+STATE\s+SERVICE(?:\s+VERSION)?`) has no capture
groups, so the `captures.len() > 1` guard in `analyze_port_scan` excludes it
from ever contributing a port; it is therefore not modelled further. -/
def portMatchesCtx (ctx : String) : List (String × String) :=
  catMap
    (fun l =>
      match portFind l with
      | some (d, s) => [(String.mk d, String.mk s)]
      | none => [])
    (linesOf ctx)

/-- The port list rendered into the finding description: `Port N` or
`Port N (service)`. -/
def portDescList (ps : List (String × String)) : String :=
  joinSep ", "
    (ps.map fun p => if p.2 = "" then "Port " ++ p.1 else "Port " ++ p.1 ++ " (" ++ p.2 ++ ")")

/-- `OutputAnalyzer::analyze_port_scan`: when any open-port capture exists in
the context, emits exactly one aggregated `Open Ports Detected` finding (the
accompanying `update_command_summary` call touches only the summary and is
modelled by `updateCommandSummary` above). -/
def analyzePortScanF (cid : String) (ctx : String) : List SecurityFinding :=
  let ports := portMatchesCtx ctx
  if ports.isEmpty then []
  else
    [createFinding "Open Ports Detected"
      ("The following ports were found open: " ++ portDescList ports)
      .Info cid ctx]

/-- Word character of `\w` (inputs are ASCII). -/
def isWordChar (c : Char) : Bool := c.isAlphanum || c == '_'

/-- Character class `[\w-]`. -/
def isWordDash (c : Char) : Bool := isWordChar c || c == '-'

/-- Try `\.[\w-]+\.\w+` anchored at the head of `l`, returning the number of
characters consumed. Both `+` quantifiers are followed by characters outside
their class, so greedy maximal runs are exact. -/
def subTailAt : List Char → Option Nat
  | '.' :: r =>
    let a := r.takeWhile isWordDash
    if a.isEmpty then none
    else
      match r.drop a.length with
      | '.' :: r2 =>
        let b := r2.takeWhile isWordChar
        if b.isEmpty then none else some (1 + a.length + 1 + b.length)
      | _ => none
  | _ => none

/-- Greedy backtracking for the `\S+` prefix of the subdomain pattern: try
taking `j` non-whitespace characters, longest first. -/
def subTryLen (l : List Char) : Nat → Option (List Char)
  | 0 => none
  | j + 1 =>
    match subTailAt (l.drop (j + 1)) with
    | some k => some (l.take (j + 1 + k))
    | none => subTryLen l j

/-- Try `(\S+\.[\w-]+\.\w+)` anchored at the head of `l` (the capture group is
the whole match). -/
def subCapAt (l : List Char) : Option (List Char) :=
  subTryLen l (takeNonWS l).length

/-- Leftmost match of the dotted-hostname subdomain pattern in a line. -/
def subFind : List Char → Option (List Char)
  | [] => none
  | c :: rest =>
    match subCapAt (c :: rest) with
    | some r => some r
    | none => subFind rest

/-- Try `found\s+(\d+)\s+subdomains` (case-insensitive) anchored at the head,
returning the digit capture. -/
def countCapAt (l : List Char) : Option (List Char) :=
  if (l.take 5).map Char.toLower = "found".data then
    match wsRun1 (l.drop 5) with
    | none => none
    | some r1 =>
      let d := digitsRun r1
      if d.isEmpty then none
      else
        match wsRun1 (r1.drop d.length) with
        | none => none
        | some r2 =>
          if isPrefixL "subdomains".data (r2.map Char.toLower) then some d else none
  else none

/-- Leftmost match of the subdomain-count pattern in a line. -/
def countFind : List Char → Option (List Char)
  | [] => none
  | c :: rest =>
    match countCapAt (c :: rest) with
    | some r => some r
    | none => countFind rest

/-- The validation filter applied to each subdomain capture: must contain a
dot, not start with `www.`, and not contain a URL scheme separator. -/
def subFilterOk (s : List Char) : Bool :=
  s.contains '.' && !(isPrefixL "www.".data s) && !(hasSubL "://".data s)

/-- Captures contributed by one line, in source pattern order (count pattern
first, then hostname pattern), each filtered. -/
def collectSubsLine (l : List Char) : List String :=
  (match countFind l with
   | some s => if subFilterOk s then [String.mk s] else []
   | none => []) ++
  (match subFind l with
   | some s => if subFilterOk s then [String.mk s] else []
   | none => [])

/-- All filtered subdomain captures over the lines of a context, in order —
the raw match material before any deduplication. -/
def collectSubdomainsRaw (ctx : String) : List String :=
  catMap collectSubsLine (linesOf ctx)

/-- Lexicographic byte order on character lists (Rust `String` ordering; for
these ASCII inputs UTF-8 byte order coincides with code-point order). -/
def lexLe : List Char → List Char → Bool
  | [], _ => true
  | _ :: _, [] => false
  | a :: as, b :: bs =>
    if a.toNat < b.toNat then true
    else if b.toNat < a.toNat then false
    else lexLe as bs

/-- Lexicographic order on strings. -/
def strLexLe (a b : String) : Bool := lexLe a.data b.data

/-- Insert into a sorted list (the order-equivalent kernel of `Vec::sort`). -/
def insertStr (x : String) : List String → List String
  | [] => [x]
  | y :: ys => if strLexLe x y then x :: y :: ys else y :: insertStr x ys

/-- Sort by lexicographic order (`Vec::sort`; for a total order on distinct
representatives any comparison sort yields the same list). -/
def sortStr : List String → List String
  | [] => []
  | x :: xs => insertStr x (sortStr xs)

/-- Remove consecutive duplicates (`Vec::dedup`). -/
def dedupAdjStr : List String → List String
  | [] => []
  | [x] => [x]
  | x :: y :: r =>
    if x = y then dedupAdjStr (y :: r) else x :: dedupAdjStr (y :: r)

/-- The subdomain list that feeds the `Subdomains Discovered` finding: the raw
captures after `subdomains.sort()` and `subdomains.dedup()`. -/
def subsUsed (ctx : String) : List String :=
  dedupAdjStr (sortStr (collectSubdomainsRaw ctx))

/-- `OutputAnalyzer::analyze_subdomains`: sorts and deduplicates the captures,
then emits one aggregated finding when any remain (the summary update is
modelled by `updateCommandSummary`). At most 10 subdomains are listed in the
description, with an `and N more` suffix beyond that. -/
def analyzeSubdomainsF (cid : String) (ctx : String) : List SecurityFinding :=
  let subs := subsUsed ctx
  if subs.isEmpty then []
  else
    let listStr := joinSep ", " (subs.take 10)
    let additional :=
      if 10 < subs.length then " and " ++ Nat.repr (subs.length - 10) ++ " more" else ""
    [createFinding "Subdomains Discovered"
      ("Discovered " ++ Nat.repr subs.length ++ " subdomains: " ++ listStr ++ additional)
      .Info cid (joinSep "\n" subs)]

/-- The analysis pass dispatched for a `Reconnaissance`-typed command
(`analyze_command_output`): port-scan analysis followed by subdomain
analysis, each appending its findings via `add_finding`. -/
def analyzeRecon (cid : String) (ctx : String) : List SecurityFinding :=
  analyzePortScanF cid ctx ++ analyzeSubdomainsF cid ctx

/-! ### The analyzer loop (`OutputAnalyzer::start`) -/

/-- Per-command analyzer state: the cumulative line buffer and the instant of
the last analysis pass. -/
structure AnState where
  buffer : List String
  lastAn : Option Nat
  deriving DecidableEq, Repr

/-- Initial analyzer state for a command. -/
def anInit : AnState := { buffer := [], lastAn := none }

/-- One iteration of the analyzer loop for a single command: append the line
to the buffer, and when no pass has run yet or more than 5 seconds have
elapsed since the last one, analyze the full buffer (joined with newlines)
and record the instant. `analyze` is the per-type dispatch
(`analyzeRecon` for a `Reconnaissance`-typed command). -/
def anStep (analyze : String → List SecurityFinding) (st : AnState)
    (line : String) (t : Nat) : AnState × List SecurityFinding :=
  let buf := st.buffer ++ [line]
  let should :=
    match st.lastAn with
    | none => true
    | some t0 => decide (5 < t - t0)
  if should then ({ buffer := buf, lastAn := some t }, analyze (joinSep "\n" buf))
  else ({ buffer := buf, lastAn := st.lastAn }, [])

/-- Run the analyzer loop over a sequence of (line, arrival instant) output
events for one command, collecting every emitted finding in order. -/
def anRun (analyze : String → List SecurityFinding) :
    List (String × Nat) → AnState → List SecurityFinding
  | [], _ => []
  | (l, t) :: evs, st =>
    let r := anStep analyze st l t
    r.2 ++ anRun analyze evs r.1

/-! ### Auto-documentation (src/src/terminal/auto_documentation.rs) -/

/-- Status of a documented finding (`FindingStatus`). -/
inductive FindingStatus where
  | New
  | InProgress
  | Verified
  | Documented
  | Closed
  deriving DecidableEq, Repr

/-- Status of a follow-up action (`ActionStatus`). -/
inductive ActionStatus where
  | Pending
  | ActInProgress
  | Completed
  | ActFailed
  deriving DecidableEq, Repr

/-- A unit of reactive work derived from a finding (`FollowUpAction`). -/
structure FollowUpAction where
  id : String
  description : String
  command : Option String
  status : ActionStatus
  result : Option String
  deriving DecidableEq, Repr

/-- The durable record derived from a security finding (`DocumentedFinding`). -/
structure DocumentedFinding where
  id : String
  title : String
  description : String
  severity : FindingSeverity
  discovery_date : Nat
  discovery_command : String
  raw_evidence : String
  follow_up_actions : List FollowUpAction
  status : FindingStatus
  file_path : String
  deriving DecidableEq, Repr

/-- Failure while documenting one finding: the two `?` sites of
`document_finding` (`get_command` lookup via `.context(...)`, and the
`save_finding_to_file` disk write). -/
inductive DocErr where
  | commandLookupFailed
  | writeFailed
  deriving DecidableEq, Repr

/-- The file-name slug derived from a finding title: lower-cased, spaces to
underscores, all other non-alphanumeric characters removed. -/
def slugOf (t : String) : String :=
  ⟨((t.data.map Char.toLower).map fun c => if c == ' ' then '_' else c).filter
      fun c => c.isAlphanum || c == '_'⟩

/-- `AutoDocumentation::document_finding`: looks up the owning command
(failure is an error for this finding), builds the documented record with a
fresh id (`docId`, UUID-derived in the source) and a deterministic file name
from the date, id and slugified title, and persists it (`fsOk` models the
disk write outcome). -/
def documentFinding (reg : List MonitoredCommand) (fsOk : Bool)
    (docId dateStr : String) (f : SecurityFinding) :
    Except DocErr DocumentedFinding :=
  match findFirst (fun c => c.id == f.command_id) reg with
  | none => .error .commandLookupFailed
  | some cmd =>
    let fileName := dateStr ++ "_" ++ docId ++ "_" ++ slugOf f.title ++ ".md"
    let d : DocumentedFinding :=
      { id := docId, title := f.title, description := f.description,
        severity := f.severity, discovery_date := f.timestamp,
        discovery_command := cmd.command, raw_evidence := f.raw_output,
        follow_up_actions := [], status := .New,
        file_path := "findings/" ++ fileName }
    if fsOk then .ok d else .error .writeFailed

/-- The documentation loop of `AutoDocumentation::start`: consumes findings in
order; each is documented with `document_finding` behind a `?`, so the first
failure propagates out of `start` — the loop body for every remaining finding
is never reached. Returns the documented findings together with the error (if
any) that ended the loop. `mkId` supplies the per-finding UUID-derived ids. -/
def docLoop (reg : List MonitoredCommand) (fsOk : Bool) (dateStr : String)
    (mkId : Nat → String) : List SecurityFinding → Nat →
    List DocumentedFinding × Option DocErr
  | [], _ => ([], none)
  | f :: rest, n =>
    match documentFinding reg fsOk (mkId n) dateStr f with
    | .error e => ([], some e)
    | .ok d =>
      let r := docLoop reg fsOk dateStr mkId rest (n + 1)
      (d :: r.1, r.2)

/-! ### Follow-up action derivation (`generate_follow_up_actions`) -/

/-- Recursion core of `portNumsL` (fuel = list length, making the recursion
structural and kernel-reducible). -/
def portNumsGo : Nat → List Char → List String
  | 0, _ => []
  | _ + 1, [] => []
  | fuel + 1, c :: rest =>
    if isPrefixL "Port ".data (c :: rest) then
      let d := digitsRun ((c :: rest).drop 5)
      if d.isEmpty then portNumsGo fuel rest
      else String.mk d :: portNumsGo fuel ((c :: rest).drop (5 + d.length))
    else portNumsGo fuel rest

/-- All `Port (\d+)` captures over a description (`captures_iter`:
non-overlapping, resuming after each match). -/
def portNumsL (l : List Char) : List String := portNumsGo l.length l

/-- Does the term match `^[a-zA-Z0-9][-a-zA-Z0-9]*\.[a-zA-Z0-9]+(?:\.[a-zA-Z0-9]+)*$`
(a dotted domain)? Decomposed on `'.'`: a first label starting alphanumeric
with alphanumeric-or-dash continuation, then one or more alphanumeric labels. -/
def domainMatch (t : List Char) : Bool :=
  match splitChL '.' t with
  | [] => false
  | p0 :: ps =>
    (match p0 with
     | [] => false
     | c :: cs => c.isAlphanum && cs.all fun c => c.isAlphanum || c == '-') &&
    !ps.isEmpty && ps.all fun p => !p.isEmpty && p.all Char.isAlphanum

/-- Does the term match `^\d{1,3}\.\d{1,3}\.\d{1,3}\.\d{1,3}$` (an IPv4
literal)? -/
def ipMatch (t : List Char) : Bool :=
  match splitChL '.' t with
  | ps =>
    ps.length == 4 &&
      ps.all fun p => decide (1 ≤ p.length) && decide (p.length ≤ 3) && p.all Char.isDigit

/-- `extract_target_from_command`: the last whitespace-separated term of the
command that looks like a domain or an IP. -/
def extractTargetFromCommand (command : String) : Option String :=
  (findFirst (fun t => domainMatch t || ipMatch t)
      (splitWSL command.data).reverse).map String.mk

/-- First `(\w+) version ([\d\.]+)` capture pair in a description (both `+`
runs are followed by characters outside their class, so maximal runs are
exact). -/
def versionCapAt (l : List Char) : Option (String × String) :=
  let w := l.takeWhile isWordChar
  if w.isEmpty then none
  else
    if isPrefixL " version ".data (l.drop w.length) then
      let v := (l.drop (w.length + 9)).takeWhile fun c => c.isDigit || c == '.'
      if v.isEmpty then none else some (String.mk w, String.mk v)
    else none

/-- Leftmost match of the software-version pattern. A match of `\w+` can only
begin at the start or after a non-word character, and `versionCapAt` takes the
maximal word run, so advancing one character at a time below visits a superset
of the positions the regex engine tries without changing the leftmost hit. -/
def versionFind : List Char → Option (String × String)
  | [] => none
  | c :: rest =>
    match versionCapAt (c :: rest) with
    | some r => some r
    | none => versionFind rest

/-- Try `CVE-\d{4}-\d{4,7}` anchored at the head, returning the whole match. -/
def cveCapAt (l : List Char) : Option (List Char) :=
  if isPrefixL "CVE-".data l then
    let r1 := l.drop 4
    let d1 := digitsRun r1
    if d1.length < 4 then none
    else if (r1.take 4).all Char.isDigit && (r1.drop 4).head? == some '-' then
      let d2 := digitsRun (r1.drop 5)
      if d2.length < 4 then none
      else some ("CVE-".data ++ r1.take 4 ++ ['-'] ++ d2.take 7)
    else none
  else none

/-- Leftmost `CVE-\d{4}-\d{4,7}` match in a description. -/
def cveFind : List Char → Option (List Char)
  | [] => none
  | c :: rest =>
    match cveCapAt (c :: rest) with
    | some r => some r
    | none => cveFind rest

/-- `AutoDocumentation::generate_follow_up_actions`: always one no-command
documentation-update action, plus at most one category action chosen by
title-substring dispatch in source order. `mkId` supplies the action UUIDs
and `workDir` the working directory (for the subdomains-file probe command,
whose `{:?}` path rendering quotes the path); the subdomains-file write is
modelled as succeeding. -/
def generateFollowUpActions (mkId : Nat → String) (workDir : String)
    (finding : DocumentedFinding) : List FollowUpAction :=
  let base : List FollowUpAction :=
    [{ id := mkId 0,
       description := "Update documentation for finding " ++ finding.id,
       command := none, status := .Pending, result := none }]
  if strHas finding.title "Open Port" then
    let ports := portNumsL finding.description.data
    if ports.isEmpty then base
    else
      match extractTargetFromCommand finding.discovery_command with
      | some target =>
        base ++
          [{ id := mkId 1,
             description := "Perform service version detection on ports: " ++ joinSep "," ports,
             command := some ("nmap -sV -p" ++ joinSep "," ports ++ " " ++ target),
             status := .Pending, result := none }]
      | none => base
  else if strHas finding.title "Subdomain" then
    let lns := linesOf finding.raw_evidence
    if lns.isEmpty then base
    else
      base ++
        [{ id := mkId 1,
           description := "Check which subdomains are active and resolve",
           command := some ("cat \"" ++ workDir ++ "/subdomains.txt\" | httpx -silent -o \"" ++
             workDir ++ "/alive_subdomains.txt\""),
           status := .Pending, result := none }]
  else if strHas finding.title "Path" || strHas finding.title "Directory" then
    base ++
      [{ id := mkId 1,
         description := "Manually analyze discovered paths for security vulnerabilities",
         command := none, status := .Pending, result := none }]
  else if strHas finding.title "Version" then
    match versionFind finding.description.data with
    | some (software, version) =>
      base ++
        [{ id := mkId 1,
           description := "Search for known vulnerabilities in " ++ software ++ " " ++ version,
           command := some ("searchsploit " ++ software ++ " " ++ version),
           status := .Pending, result := none }]
    | none => base
  else if strHas finding.title "CVE" then
    match cveFind finding.description.data with
    | some cve =>
      base ++
        [{ id := mkId 1,
           description := "Gather detailed information about " ++ String.mk cve,
           command := some ("curl -s https://cve.circl.lu/api/cve/" ++ String.mk cve),
           status := .Pending, result := none }]
    | none => base
  else if strHas finding.title "XSS" || strHas finding.title "Injection" then
    base ++
      [{ id := mkId 1,
         description := "Manually verify the " ++
           (if strHas finding.title "XSS" then "XSS" else "SQL Injection") ++ " finding",
         command := none, status := .Pending, result := none }]
  else base

/-! ### The event channels (`get_output_receiver` / `get_findings_receiver`)

Both getters share one implementation shape: the monitor stores a
(sender, receiver) pair; a getter builds a brand-new channel, swaps the NEW
receiver into the stored pair, drops the new sender on the spot, and returns
the OLD stored receiver. Channels are numbered; the stored sender keeps the
channel it was created with, and a published event is delivered on the stored
sender's channel (a returned receiver sees it exactly when their numbers
agree). -/

/-- The stored (sender, receiver) pair of one event channel, plus a supply of
fresh channel numbers. -/
structure ChanPair where
  sendChan : Nat
  recvChan : Nat
  fresh : Nat
  deriving DecidableEq, Repr

/-- The channel pair created in `CommandMonitor::new`: one channel, number 0. -/
def initChanPair : ChanPair := { sendChan := 0, recvChan := 0, fresh := 1 }

/-- A receiver-getter call: returns the stored receiver and installs the
receiver of a fresh channel whose sender is dropped immediately; the stored
sender is left untouched. -/
def getReceiverCall (s : ChanPair) : Nat × ChanPair :=
  (s.recvChan, { sendChan := s.sendChan, recvChan := s.fresh, fresh := s.fresh + 1 })

/-- The channel an event published in state `s` is delivered on: the stored
sender's channel (every publish site clones the stored sender). -/
def publishChan (s : ChanPair) : Nat := s.sendChan

/-- The channel state after `n` receiver-getter calls. -/
def afterCalls : Nat → ChanPair
  | 0 => initChanPair
  | n + 1 => (getReceiverCall (afterCalls n)).2

/-- The receiver returned by call number `n + 1` (calls counted from 1). -/
def returnedBy (n : Nat) : Nat := (getReceiverCall (afterCalls n)).1

/-! ### Concrete scenario inputs used by the claim theorems -/

/-- The command registered by the registration trace `traceReg`. -/
def regOne : MonitoredCommand :=
  { id := "a", command := "nmap x.com", start_time := 0, end_time := none,
    status := .Running, output_file := "f.log", results_summary := none,
    findings := [], command_type := .Generic }

/-- Trace: one command registered. -/
def traceReg : List RegOp := [.register "a" "nmap x.com" 0 "f.log" .Generic]

/-- Trace: the command is registered, then terminated by the user while the
matching process is found alive. -/
def traceTerm : List RegOp := traceReg ++ [.terminateOp "a" true 1]

/-- Trace: after the user termination, the exit waiter observes the killed
process exiting with a non-zero code. -/
def traceWait : List RegOp := traceTerm ++ [.finishWaitOp "a" false "1" 2]

/-- A registry holding one command, id `c2`. -/
def regDoc : List MonitoredCommand :=
  [{ id := "c2", command := "nmap example.com", start_time := 0, end_time := none,
     status := .Running, output_file := "o.log", results_summary := none,
     findings := [], command_type := .Reconnaissance }]

/-- A finding whose `command_id` matches no registered command. -/
def findingBad : SecurityFinding := createFinding "T" "D" .Info "c1" "raw"

/-- A finding owned by the registered command `c2`. -/
def findingGood : SecurityFinding := createFinding "T" "D" .Info "c2" "raw"

/-- The documented finding of the C6 scenario: an `Open Port` finding with
description `Port 80, Port 443` discovered by `nmap example.com`. -/
def openPortFinding : DocumentedFinding :=
  { id := "FINDING-1", title := "Open Ports Detected",
    description := "Port 80, Port 443", severity := .Info, discovery_date := 0,
    discovery_command := "nmap example.com", raw_evidence := "",
    follow_up_actions := [], status := .New, file_path := "" }

/-- The two-line port-scan context of the C2 scenario. -/
def portCtx : String := "80/tcp open http\n443/tcp open https"

/-- The duplicated-subdomain context of the C8 scenario. -/
def dupCtx : String := "sub.example.com\nsub.example.com"

/-- The order `a ≤ b` on strings used by `sortStr`, as a proposition. -/
def StrLeP (a b : String) : Prop := strLexLe a b = true

/-!
## Theorems

First the generic lemmas about the helper functions, the sortedness of
`sortStr` and the registry invariant; then, in claim order, the theorems
settling claims C1–C10.
-/

/-! ### Helper lemmas -/

theorem findFirst_eq_none {p : α → Bool} {l : List α}
    (h : findFirst p l = none) : ∀ x ∈ l, p x = false := by
  induction l with
  | nil => intro x hx; cases hx
  | cons a as ih =>
    intro x hx
    cases hpa : p a with
    | true => simp [findFirst, hpa] at h
    | false =>
      rcases List.mem_cons.mp hx with rfl | hx'
      · exact hpa
      · exact ih (by simpa [findFirst, hpa] using h) x hx'

theorem findFirst_none_of_all {p : α → Bool} {l : List α}
    (h : ∀ x ∈ l, p x = false) : findFirst p l = none := by
  induction l with
  | nil => rfl
  | cons a as ih =>
    have ha := h a (List.mem_cons_self a as)
    simp only [findFirst, ha]
    simpa using ih fun x hx => h x (List.mem_cons_of_mem a hx)

theorem modifyFirst_of_none {p : α → Bool} {f : α → α} {l : List α}
    (h : ∀ x ∈ l, p x = false) : modifyFirst p f l = l := by
  induction l with
  | nil => rfl
  | cons a as ih =>
    have ha := h a (List.mem_cons_self a as)
    simp only [modifyFirst, ha]
    simpa using ih fun x hx => h x (List.mem_cons_of_mem a hx)

theorem mem_modifyFirst {p : α → Bool} {f : α → α} {l : List α} {c : α}
    (h : c ∈ modifyFirst p f l) : c ∈ l ∨ ∃ x ∈ l, c = f x := by
  induction l with
  | nil => cases h
  | cons a as ih =>
    cases hpa : p a with
    | true =>
      simp only [modifyFirst, hpa, if_pos] at h
      rcases List.mem_cons.mp h with rfl | h'
      · exact Or.inr ⟨a, List.mem_cons_self a as, rfl⟩
      · exact Or.inl (List.mem_cons_of_mem a h')
    | false =>
      simp only [modifyFirst, hpa] at h
      simp only [Bool.false_eq_true, if_false] at h
      rcases List.mem_cons.mp h with rfl | h'
      · exact Or.inl (List.mem_cons_self _ _)
      · rcases ih h' with h'' | ⟨x, hx, rfl⟩
        · exact Or.inl (List.mem_cons_of_mem a h'')
        · exact Or.inr ⟨x, List.mem_cons_of_mem a hx, rfl⟩

/-! ### The lexicographic order and the sort/dedup pipeline -/

theorem char_eq_of_toNat_eq {a b : Char} (h : a.toNat = b.toNat) : a = b := by
  apply Char.ext
  unfold Char.toNat at h
  exact UInt32.eq_of_val_eq (Fin.ext h)

theorem lexLe_total : ∀ a b : List Char, lexLe a b = true ∨ lexLe b a = true
  | [], _ => Or.inl rfl
  | _ :: _, [] => Or.inr rfl
  | a :: as, b :: bs => by
    rcases Nat.lt_trichotomy a.toNat b.toNat with hlt | heq | hgt
    · exact Or.inl (by simp [lexLe, hlt])
    · rcases lexLe_total as bs with h | h
      · exact Or.inl (by simp [lexLe, heq, h])
      · exact Or.inr (by simp [lexLe, heq.symm, h])
    · exact Or.inr (by simp [lexLe, hgt])

theorem lexLe_antisymm : ∀ a b : List Char,
    lexLe a b = true → lexLe b a = true → a = b
  | [], [], _, _ => rfl
  | [], _ :: _, _, h2 => by simp [lexLe] at h2
  | _ :: _, [], h1, _ => by simp [lexLe] at h1
  | a :: as, b :: bs, h1, h2 => by
    simp only [lexLe] at h1 h2
    by_cases hab : a.toNat < b.toNat
    · rw [if_neg (by omega), if_pos hab] at h2
      exact absurd h2 (by simp)
    · by_cases hba : b.toNat < a.toNat
      · rw [if_neg hab, if_pos hba] at h1
        exact absurd h1 (by simp)
      · have ha : a = b := char_eq_of_toNat_eq (by omega)
        subst ha
        rw [if_neg hab, if_neg hba] at h1
        rw [if_neg hba, if_neg hab] at h2
        rw [lexLe_antisymm as bs h1 h2]

theorem lexLe_trans : ∀ a b c : List Char,
    lexLe a b = true → lexLe b c = true → lexLe a c = true
  | [], _, _, _, _ => rfl
  | _ :: _, [], _, h1, _ => by simp [lexLe] at h1
  | _ :: _, _ :: _, [], _, h2 => by simp [lexLe] at h2
  | a :: as, b :: bs, c :: cs, h1, h2 => by
    simp only [lexLe] at h1 h2 ⊢
    by_cases hba : b.toNat < a.toNat
    · rw [if_neg (by omega), if_pos hba] at h1
      exact absurd h1 (by simp)
    · by_cases hcb : c.toNat < b.toNat
      · rw [if_neg (by omega), if_pos hcb] at h2
        exact absurd h2 (by simp)
      · by_cases hac : a.toNat < c.toNat
        · rw [if_pos hac]
        · have hab : ¬ a.toNat < b.toNat := by omega
          have hbc : ¬ b.toNat < c.toNat := by omega
          rw [if_neg hab, if_neg hba] at h1
          rw [if_neg hbc, if_neg hcb] at h2
          rw [if_neg hac, if_neg (by omega)]
          exact lexLe_trans as bs cs h1 h2

theorem strLeP_total (a b : String) : StrLeP a b ∨ StrLeP b a :=
  lexLe_total a.data b.data

theorem strLeP_antisymm {a b : String} (h1 : StrLeP a b) (h2 : StrLeP b a) : a = b := by
  obtain ⟨da⟩ := a
  obtain ⟨db⟩ := b
  have : da = db := lexLe_antisymm da db h1 h2
  rw [this]

theorem strLeP_trans {a b c : String} (h1 : StrLeP a b) (h2 : StrLeP b c) : StrLeP a c :=
  lexLe_trans a.data b.data c.data h1 h2

theorem mem_insertStr {x z : String} : ∀ {l : List String},
    z ∈ insertStr x l → z = x ∨ z ∈ l := by
  intro l
  induction l with
  | nil => intro h; simpa [insertStr] using h
  | cons y ys ih =>
    intro h
    simp only [insertStr] at h
    by_cases hc : strLexLe x y = true
    · rw [if_pos hc] at h
      rcases List.mem_cons.mp h with rfl | h'
      · exact Or.inl rfl
      · exact Or.inr h'
    · rw [if_neg hc] at h
      rcases List.mem_cons.mp h with rfl | h'
      · exact Or.inr (List.mem_cons_self _ _)
      · rcases ih h' with h'' | h''
        · exact Or.inl h''
        · exact Or.inr (List.mem_cons_of_mem y h'')

theorem pairwise_insertStr (x : String) : ∀ {l : List String},
    l.Pairwise StrLeP → (insertStr x l).Pairwise StrLeP := by
  intro l
  induction l with
  | nil => intro _; simp [insertStr]
  | cons y ys ih =>
    intro h
    rcases List.pairwise_cons.mp h with ⟨hy, hys⟩
    simp only [insertStr]
    by_cases hc : strLexLe x y = true
    · rw [if_pos hc]
      refine List.pairwise_cons.mpr ⟨?_, h⟩
      intro b hb
      rcases List.mem_cons.mp hb with rfl | hb'
      · exact hc
      · exact strLeP_trans hc (hy b hb')
    · rw [if_neg hc]
      refine List.pairwise_cons.mpr ⟨?_, ih hys⟩
      intro b hb
      rcases mem_insertStr hb with rfl | hb'
      · rcases strLeP_total y b with hyb | hby
        · exact hyb
        · exact absurd hby hc
      · exact hy b hb'

theorem pairwise_sortStr : ∀ l : List String, (sortStr l).Pairwise StrLeP
  | [] => List.Pairwise.nil
  | x :: xs => pairwise_insertStr x (pairwise_sortStr xs)

theorem mem_dedupAdjStr : ∀ (l : List String) (a : String),
    a ∈ dedupAdjStr l → a ∈ l
  | [], _, h => h
  | [_], _, h => h
  | x :: y :: r, a, h => by
    simp only [dedupAdjStr] at h
    by_cases hxy : x = y
    · rw [if_pos hxy] at h
      exact List.mem_cons_of_mem x (mem_dedupAdjStr (y :: r) a h)
    · rw [if_neg hxy] at h
      rcases List.mem_cons.mp h with rfl | h'
      · exact List.mem_cons_self _ _
      · exact List.mem_cons_of_mem x (mem_dedupAdjStr (y :: r) a h')

theorem dedupAdjStr_nodup : ∀ l : List String,
    l.Pairwise StrLeP → (dedupAdjStr l).Nodup
  | [], _ => List.Pairwise.nil
  | [x], _ => List.nodup_singleton x
  | x :: y :: r, h => by
    rcases List.pairwise_cons.mp h with ⟨hx, hyr⟩
    simp only [dedupAdjStr]
    by_cases hxy : x = y
    · rw [if_pos hxy]
      exact dedupAdjStr_nodup (y :: r) hyr
    · rw [if_neg hxy]
      refine List.nodup_cons.mpr ⟨?_, dedupAdjStr_nodup (y :: r) hyr⟩
      intro hmem
      have hin : x ∈ y :: r := mem_dedupAdjStr (y :: r) x hmem
      rcases List.mem_cons.mp hin with rfl | hr
      · exact hxy rfl
      · have hxley : StrLeP x y := hx y (List.mem_cons_self _ _)
        have hylex : StrLeP y x :=
          (List.pairwise_cons.mp hyr).1 x hr
        exact hxy (strLeP_antisymm hxley hylex)

/-! ### The registry invariant -/

theorem terminateCommand_fst (reg : List MonitoredCommand) (id : String)
    (ps : Bool) (t : Nat) :
    (terminateCommand reg id ps t).1 = reg ∨
    (terminateCommand reg id ps t).1 =
      modifyFirst (fun c => c.id == id)
        (fun c => { c with status := .Failed "Terminated by user", end_time := some t })
        reg := by
  unfold terminateCommand
  cases findFirst (fun c => c.id == id) reg with
  | none => exact Or.inl rfl
  | some c' =>
    dsimp only
    cases c'.status with
    | Running =>
      cases ps with
      | false => exact Or.inl rfl
      | true => exact Or.inr rfl
    | Completed => exact Or.inl rfl
    | Failed r => exact Or.inl rfl

theorem applyOp_endTime_iff_terminal (reg : List MonitoredCommand) (o : RegOp)
    (h : ∀ c ∈ reg, c.end_time.isSome = isTerminal c.status) :
    ∀ c ∈ applyOp reg o, c.end_time.isSome = isTerminal c.status := by
  cases o with
  | register id cl t file ct =>
    intro c hc
    simp only [applyOp] at hc
    rcases List.mem_append.mp hc with h1 | h2
    · exact h c h1
    · rw [List.mem_singleton.mp h2]
      rfl
  | finishWaitOp id exitOk code t =>
    intro c hc
    simp only [applyOp, finishWait] at hc
    rcases mem_modifyFirst hc with h1 | ⟨x, _, rfl⟩
    · exact h c h1
    · cases exitOk <;> rfl
  | terminateOp id ps t =>
    intro c hc
    simp only [applyOp] at hc
    rcases terminateCommand_fst reg id ps t with heq | heq <;> rw [heq] at hc
    · exact h c hc
    · rcases mem_modifyFirst hc with h1 | ⟨x, _, rfl⟩
      · exact h c h1
      · rfl
  | updateSummaryOp id s =>
    intro c hc
    simp only [applyOp, updateCommandSummary] at hc
    rcases mem_modifyFirst hc with h1 | ⟨x, hx, rfl⟩
    · exact h c h1
    · exact h x hx
  | addFindingOp f =>
    intro c hc
    simp only [applyOp, addFindingM] at hc
    rcases mem_modifyFirst hc with h1 | ⟨x, hx, rfl⟩
    · exact h c h1
    · exact h x hx

theorem runOps_endTime_iff_terminal :
    ∀ (ops : List RegOp) (reg : List MonitoredCommand),
      (∀ c ∈ reg, c.end_time.isSome = isTerminal c.status) →
      ∀ c ∈ runOps ops reg, c.end_time.isSome = isTerminal c.status
  | [], _, h => h
  | o :: os, reg, h =>
    runOps_endTime_iff_terminal os (applyOp reg o) (applyOp_endTime_iff_terminal reg o h)

/-! ### Claim C1 — a documentation failure and the documentation loop -/

/-- C1 (amended): a failure while documenting one finding (owning-command
lookup failure or file-write failure) is surfaced as an error — but because
`start` consumes `document_finding` behind `?`, that error halts the
documentation loop: no subsequent finding from the channel is processed. -/
theorem c1_doc_failure_halts_loop (reg : List MonitoredCommand) (fsOk : Bool)
    (dateStr : String) (mkId : Nat → String) (f : SecurityFinding)
    (rest : List SecurityFinding) (n : Nat) (e : DocErr)
    (h : documentFinding reg fsOk (mkId n) dateStr f = .error e) :
    docLoop reg fsOk dateStr mkId (f :: rest) n = ([], some e) := by
  unfold docLoop
  rw [h]

/-- Witness for C1: a concrete failing head finding halts the loop with the
lookup error. -/
theorem c1_witness :
    docLoop regDoc true "d" (fun _ => "F") [findingBad, findingGood] 0 =
      ([], some .commandLookupFailed) :=
  c1_doc_failure_halts_loop regDoc true "d" (fun _ => "F") findingBad
    [findingGood] 0 .commandLookupFailed rfl

/-- Counterexample for C1 as stated: with the failing finding first, the loop
output shows the error and NO documented finding — in particular the second
finding, which on its own documents successfully (second and third
conjuncts), was never consumed. -/
theorem c1_counterexample :
    docLoop regDoc true "20250101" (fun _ => "F") [findingBad, findingGood] 0 =
        ([], some .commandLookupFailed) ∧
      (docLoop regDoc true "20250101" (fun _ => "F") [findingGood] 0).2 = none ∧
      (docLoop regDoc true "20250101" (fun _ => "F") [findingGood] 0).1.length = 1 := by
  decide

/-! ### Claim C2 — the two-line port-scan scenario -/

/-- C2 (amended): an analysis pass whose buffer holds both output lines emits
exactly one `Open Ports Detected` finding whose description lists both
port 80 and port 443. (The loop itself runs its first pass as soon as the
first line arrives — see the counterexample.) -/
theorem c2_pass_lists_both_ports :
    analyzeRecon "c" portCtx =
        [createFinding "Open Ports Detected"
          "The following ports were found open: Port 80 (http), Port 443 (https)"
          .Info "c" portCtx] ∧
      strHas "The following ports were found open: Port 80 (http), Port 443 (https)"
        "Port 80 (http)" = true ∧
      strHas "The following ports were found open: Port 80 (http), Port 443 (https)"
        "Port 443 (https)" = true := by
  decide

/-- Counterexample for C2 as stated: when the two lines arrive within the
5-second throttle (here 1 second apart), the loop emits exactly one finding —
but its analysis pass ran when only the first line had arrived, so the
description lists only port 80 and does not mention 443. -/
theorem c2_counterexample :
    (anRun (analyzeRecon "c") [("80/tcp open http", 0), ("443/tcp open https", 1)]
          anInit).map (fun f => f.description) =
        ["The following ports were found open: Port 80 (http)"] ∧
      strHas "The following ports were found open: Port 80 (http)" "443" = false := by
  decide

/-! ### Claim C3 — end time iff terminal, and (non-)monotonicity -/

/-- C3 (amended): over every sequence of registry operations from the empty
registry, every registered command satisfies: `end_time` is set if and only
if its status is terminal. (The monotonicity half of the claim fails — see
the counterexample.) -/
theorem c3_endtime_iff_terminal (ops : List RegOp) :
    ∀ c ∈ runOps ops [], c.end_time.isSome = isTerminal c.status :=
  runOps_endTime_iff_terminal ops [] (by intro c hc; cases hc)

/-- Witness for C3: the command registered by the one-step trace satisfies
the invariant. -/
theorem c3_witness : regOne.end_time.isSome = isTerminal regOne.status :=
  c3_endtime_iff_terminal traceReg regOne (by decide)

/-- Counterexample for C3 as stated: after a user termination the command is
terminal (`Failed "Terminated by user"`, end time 1), yet when the exit
waiter then observes the killed process exiting it transitions the status
again — to a different terminal value — and re-assigns the end time. -/
theorem c3_counterexample :
    (runOps traceTerm []).map (fun c => (c.status, c.end_time)) =
        [(.Failed "Terminated by user", some 1)] ∧
      (runOps traceWait []).map (fun c => (c.status, c.end_time)) =
        [(.Failed "Command exited with code: 1", some 2)] ∧
      isTerminal (.Failed "Terminated by user") = true ∧
      (CommandStatus.Failed "Terminated by user" ≠
        CommandStatus.Failed "Command exited with code: 1") := by
  decide

/-! ### Claim C4 — the SYN-scan downgrade -/

/-- C4: executing the exact line `nmap -sS example.com` does not reject (under
the environment assumption that the tools queried via `which` are installed):
before any spawn the line is rewritten to the unprivileged ` -sT` flag, and
the rewritten line is what is registered and spawned. Moreover, for every
command line containing `nmap` and ` -sS` (after trimming) that does not
start with `sudo `, any successful validation returns exactly the
` -sS` → ` -sT` replacement of the trimmed line. -/
theorem c4_syn_scan_downgrade (ti : String → Bool) (hti : ∀ tool, ti tool = true) :
    (executeCommand ti [] "nmap -sS example.com" .Reconnaissance "id0" 0 "out.log" =
        ([{ id := "id0", command := "nmap -sT example.com", start_time := 0,
            end_time := none, status := .Running, output_file := "out.log",
            results_summary := none, findings := [],
            command_type := .Reconnaissance }],
         .ok ("id0", "nmap -sT example.com"))) ∧
      ∀ cmd out, strHas (strTrim cmd) "nmap" = true →
        strHas (strTrim cmd) " -sS" = true →
        strStarts (strTrim cmd) "sudo " = false →
        validateAndFixCommand ti cmd = .ok out →
        out = strReplace (strTrim cmd) " -sS" " -sT" := by
  have hgate : ∀ fixed, toolGate ti fixed = .ok fixed := by
    intro fixed
    unfold toolGate
    rw [findFirst_none_of_all (by intro x _; simp [hti x])]
  constructor
  · have hval : validateAndFixCommand ti "nmap -sS example.com" =
        .ok "nmap -sT example.com" := by
      unfold validateAndFixCommand
      rw [show strTrim "nmap -sS example.com" = "nmap -sS example.com" from by decide]
      rw [if_neg (by decide)]
      rw [show findFirst
            (fun m => strHas (strLower "nmap -sS example.com") m) explanatoryMarkers =
          none from by decide]
      dsimp only
      rw [if_neg (by decide), if_neg (by decide)]
      rw [show fixNmapSyn "nmap -sS example.com" = "nmap -sT example.com" from by decide]
      exact hgate "nmap -sT example.com"
    unfold executeCommand
    rw [hval]
    rfl
  · intro cmd out h1 h2 h3 hok
    unfold validateAndFixCommand at hok
    by_cases hemp : strTrim cmd = ""
    · rw [if_pos hemp] at hok
      exact Except.noConfusion hok
    · rw [if_neg hemp] at hok
      cases hm : findFirst (fun m => strHas (strLower (strTrim cmd)) m)
          explanatoryMarkers with
      | some m =>
        rw [hm] at hok
        dsimp only at hok
        exact Except.noConfusion hok
      | none =>
        rw [hm] at hok
        dsimp only at hok
        cases hpf : privilegedScanFlag (strTrim cmd) with
        | true =>
          rw [if_pos hpf] at hok
          exact Except.noConfusion hok
        | false =>
          rw [if_neg (by simp [hpf])] at hok
          cases hmt : nmapMissingTarget (fixNmapSyn (strTrim cmd)) with
          | true =>
            rw [if_pos hmt] at hok
            exact Except.noConfusion hok
          | false =>
            rw [if_neg (by simp [hmt])] at hok
            rw [hgate (fixNmapSyn (strTrim cmd))] at hok
            have hout : fixNmapSyn (strTrim cmd) = out := by
              injection hok
            rw [← hout]
            unfold fixNmapSyn
            rw [h1, h2, h3]
            rw [if_pos (by decide)]

/-- Witness for C4: instantiated at the all-tools-installed environment; the
concrete scenario conjunct and one concrete instance of the universal rewrite
conjunct. -/
theorem c4_witness :
    (executeCommand (fun _ => true) [] "nmap -sS example.com" .Reconnaissance
        "id0" 0 "out.log" =
      ([{ id := "id0", command := "nmap -sT example.com", start_time := 0,
          end_time := none, status := .Running, output_file := "out.log",
          results_summary := none, findings := [],
          command_type := .Reconnaissance }],
       .ok ("id0", "nmap -sT example.com"))) ∧
    "nmap -sT example.com" = strReplace (strTrim "nmap -sS example.com") " -sS" " -sT" :=
  ⟨(c4_syn_scan_downgrade (fun _ => true) (fun _ => rfl)).1,
   (c4_syn_scan_downgrade (fun _ => true) (fun _ => rfl)).2
     "nmap -sS example.com" "nmap -sT example.com"
     (by decide) (by decide) (by decide) (by decide)⟩

/-! ### Claim C5 — validation rejections leave the registry untouched -/

/-- C5: for every command line that trims to empty, or contains `try this`
case-insensitively, or is an nmap invocation with none of the recognized
target patterns, `execute` returns a validation error, registers nothing and
spawns nothing (the registry component is returned unchanged and no `.ok`
spawn payload exists). -/
theorem c5_validation_rejects (ti : String → Bool) (reg : List MonitoredCommand)
    (cmdline : String) (ctype : CommandType) (id : String) (t : Nat) (file : String)
    (h : strTrim cmdline = "" ∨
         strHas (strLower (strTrim cmdline)) "try this" = true ∨
         nmapMissingTarget (fixNmapSyn (strTrim cmdline)) = true) :
    (executeCommand ti reg cmdline ctype id t file).1 = reg ∧
      ∃ e, (executeCommand ti reg cmdline ctype id t file).2 = .error e := by
  have hval : ∃ e, validateAndFixCommand ti cmdline = .error e := by
    unfold validateAndFixCommand
    by_cases hemp : strTrim cmdline = ""
    · exact ⟨.emptyCommand, by rw [if_pos hemp]⟩
    · rw [if_neg hemp]
      cases hm : findFirst (fun m => strHas (strLower (strTrim cmdline)) m)
          explanatoryMarkers with
      | some m => exact ⟨.explanatoryText m, rfl⟩
      | none =>
        dsimp only
        have hnotry : strHas (strLower (strTrim cmdline)) "try this" = false :=
          findFirst_eq_none hm "try this" (by decide)
        rcases h with h1 | h2 | h3
        · exact absurd h1 hemp
        · rw [hnotry] at h2; cases h2
        · cases hpf : privilegedScanFlag (strTrim cmdline) with
          | true => exact ⟨.privilegedScan, rfl⟩
          | false =>
            refine ⟨.missingTarget, ?_⟩
            rw [if_neg (by simp), if_pos h3]
  rcases hval with ⟨e, he⟩
  refine ⟨?_, ⟨e, ?_⟩⟩ <;> unfold executeCommand <;> rw [he]

/-- Witness for C5: the empty command line is rejected and the empty registry
is returned unchanged. -/
theorem c5_witness :
    (executeCommand (fun _ => true) [] "" .Generic "id0" 0 "o.log").1 = [] ∧
      ∃ e, (executeCommand (fun _ => true) [] "" .Generic "id0" 0 "o.log").2 =
        .error e :=
  c5_validation_rejects (fun _ => true) [] "" .Generic "id0" 0 "o.log"
    (Or.inl (by decide))

/-! ### Claim C6 — follow-up action for the open-port finding -/

/-- C6: for the `Open Port` finding with description `Port 80, Port 443` and
discovery command `nmap example.com`, the generated actions are exactly the
always-present no-command documentation update plus one action whose command
is `nmap -sV -p80,443 example.com` — ports extracted from the description in
order, target recovered from the discovery command. -/
theorem c6_open_port_follow_up :
    (generateFollowUpActions (fun _ => "") "" openPortFinding).map
        (fun a => (a.command, a.description)) =
      [(none, "Update documentation for finding FINDING-1"),
       (some "nmap -sV -p80,443 example.com",
        "Perform service version detection on ports: 80,443")] := by
  decide

/-! ### Claim C7 — terminating an unknown id -/

/-- C7: terminating a command id that matches no registered command returns
the not-found error and returns the registry completely unchanged. -/
theorem c7_terminate_unknown_id (reg : List MonitoredCommand) (cmdId : String)
    (psFound : Bool) (t : Nat) (h : ∀ c ∈ reg, (c.id == cmdId) = false) :
    terminateCommand reg cmdId psFound t = (reg, .error (.notFound cmdId)) := by
  unfold terminateCommand
  rw [findFirst_none_of_all h]

/-- Witness for C7: concrete unknown id against the one-command registry. -/
theorem c7_witness :
    terminateCommand regDoc "nope" true 3 = (regDoc, .error (.notFound "nope")) :=
  c7_terminate_unknown_id regDoc "nope" true 3 (by decide)

/-! ### Claim C8 — deduplication inside the subdomain analyzer -/

/-- C8 (amended): the subdomain analyzer DOES deduplicate within a pass — the
list feeding its finding is sorted and duplicate-free for every context. -/
theorem c8_subdomain_material_nodup (ctx : String) : (subsUsed ctx).Nodup := by
  unfold subsUsed
  exact dedupAdjStr_nodup _ (pairwise_sortStr _)

/-- Witness for C8: the deduplicated material of the concrete duplicated
context is duplicate-free. -/
theorem c8_witness : (subsUsed dupCtx).Nodup :=
  c8_subdomain_material_nodup dupCtx

/-- Counterexample for C8 as stated: a context with the same matching line
twice yields two raw subdomain captures, but the emitted finding is fed the
deduplicated singleton and reports `1` subdomain. -/
theorem c8_counterexample :
    collectSubdomainsRaw dupCtx = ["sub.example.com", "sub.example.com"] ∧
      subsUsed dupCtx = ["sub.example.com"] ∧
      (analyzeSubdomainsF "c" dupCtx).map (fun f => f.description) =
        ["Discovered 1 subdomains: sub.example.com"] := by
  decide

/-! ### Claim C9 — the receiver getters -/

/-- C9 (amended): each getter call returns the currently stored receiver and
installs a fresh receiver whose sender is dropped at once, while the
publishing sender is never replaced: after any number of calls events are
still delivered on channel 0 — the receiver returned by the FIRST call — and
call `n + 1` returns receiver `n`, so receivers from later calls never see
events. -/
theorem c9_first_receiver_keeps_events (n : Nat) :
    publishChan (afterCalls n) = 0 ∧ returnedBy n = n := by
  have haux : ∀ m, afterCalls m = { sendChan := 0, recvChan := m, fresh := m + 1 } := by
    intro m
    induction m with
    | zero => rfl
    | succ k ih => simp [afterCalls, getReceiverCall, ih]
  constructor
  · rw [haux n]; rfl
  · unfold returnedBy
    rw [haux n]
    rfl

/-- Witness for C9: after three calls events still go to channel 0 and the
third call returned receiver 2. -/
theorem c9_witness : publishChan (afterCalls 3) = 0 ∧ returnedBy 3 = 3 :=
  c9_first_receiver_keeps_events 3

/-- Counterexample for C9 as stated: after a second getter call, an event
published next is delivered on channel 0 — the receiver returned by the
FIRST call — not on channel 1, the receiver returned by the latest call. -/
theorem c9_counterexample :
    returnedBy 0 = 0 ∧ returnedBy 1 = 1 ∧ publishChan (afterCalls 2) = 0 ∧
      publishChan (afterCalls 2) ≠ returnedBy 1 := by
  decide

/-! ### Claim C10 — adding a finding with an unknown command id -/

/-- C10: adding a finding whose `command_id` matches no registered command
still returns `Ok` and publishes the finding to the findings channel, while
leaving the registry (in particular every findings list) unchanged; no error
reports the absent command. The channel send succeeds because the monitor
itself owns the receiver. -/
theorem c10_addFinding_unknown_command (reg : List MonitoredCommand)
    (f : SecurityFinding) (h : ∀ c ∈ reg, (c.id == f.command_id) = false) :
    addFindingM reg f true = (reg, [f], .ok ()) := by
  unfold addFindingM
  rw [modifyFirst_of_none h]
  rfl

/-- Witness for C10: the orphan finding against the one-command registry. -/
theorem c10_witness :
    addFindingM regDoc findingBad true = (regDoc, [findingBad], .ok ()) :=
  c10_addFinding_unknown_command regDoc findingBad (by decide)

end Hx
